import Mathlib

/-!
Verification of the SQLite storage layer (raiden/storage/sqlite.py).

Shallow embedding: tables are lists of rows, SQL execution is modelled by
list operations (WHERE is a filter, ORDER BY identifier is a sort on the
identifier column, LIMIT/OFFSET are take/drop, ORDER BY identifier DESC
LIMIT 1 picks the row of greatest identifier), and the query-builder
functions that the source implements by string concatenation are modelled
at the string level, producing the same SQL text and parameter list.
Python exceptions are modelled by an error type returned through Except.
-/

/-- Payloads stored in the data columns are opaque byte strings. -/
abbrev Bytes := String

/-- Row of the state_changes table: identifier (PK), data, log_time. -/
structure StateChangeRow where
  identifier : Int
  data : Bytes
  log_time : String
deriving Repr, DecidableEq

/-- Row of the state_snapshot table: identifier (PK), statechange_id, data. -/
structure SnapshotRow where
  identifier : Int
  statechange_id : Int
  data : Bytes
deriving Repr, DecidableEq

/-- Row of the state_events table. -/
structure EventRow where
  identifier : Int
  source_statechange_id : Int
  log_time : String
  data : Bytes
deriving Repr, DecidableEq

/-- Python-level value passed as an identifier bound: an int, a string
(the literal "latest" is the meaningful one), or None. -/
inductive Bound where
  | int (n : Int)
  | str (s : String)
  | null
deriving Repr, DecidableEq

/-- Errors raised by the storage layer: ValueError, InvalidNumberInput,
AssertionError, and the sqlite3 interface error raised when a non-scalar
value is bound as a query parameter. -/
inductive DBErr where
  | valueError
  | invalidNumberInput
  | assertionError
  | interfaceError
deriving Repr, DecidableEq

/-- Test for the Python comparison bound == "latest". -/
def Bound.isLatest : Bound → Bool
  | .str s => s = "latest"
  | _ => Bool.false

/-- Test for the Python check isinstance(bound, int). -/
def Bound.isInt : Bound → Bool
  | .int _ => Bool.true
  | _ => Bool.false

/-- Integer payload of a bound (0 for the other constructors; only used
where the bound is known to be an int). -/
def Bound.getInt : Bound → Int
  | .int n => n
  | _ => 0

/-- Insert a row into a list that is sorted by ascending identifier. -/
def insertByIdent (identOf : α → Int) (r : α) : List α → List α
  | [] => [r]
  | x :: xs =>
    if identOf r ≤ identOf x then r :: x :: xs else x :: insertByIdent identOf r xs

/-- Sort a table by ascending identifier: the ORDER BY identifier ASC of
the SQL queries in the source. -/
def sortByIdent (identOf : α → Int) : List α → List α
  | [] => []
  | x :: xs => insertByIdent identOf x (sortByIdent identOf xs)

/-- ORDER BY identifier DESC LIMIT 1 over a table: the row with the
greatest identifier, modelled as the last element of the ascending sort. -/
def selectMaxByIdent (identOf : α → Int) (l : List α) : Option α :=
  (sortByIdent identOf l).getLast?

/-- SQLiteStorage.get_statechanges_by_identifier (sqlite.py lines 432-460).
Validates both bounds (ValueError unless int or the string "latest"); on
from = "latest" asserts to is None, which can never hold at that point
because the to-bound validation has already rejected None, so the branch
always raises; the surviving branches run the ascending range queries.
The fetchone call in the dead from = "latest" branch stores a raw row
tuple into from_identifier, which the later parameter binding rejects,
modelled as interfaceError. -/
def get_statechanges_by_identifier (tbl : List StateChangeRow)
    (from_identifier to_identifier : Bound) : Except DBErr (List Bytes) :=
  if !(from_identifier.isLatest || from_identifier.isInt) then
    .error .valueError
  else if !(to_identifier.isLatest || to_identifier.isInt) then
    .error .valueError
  else if from_identifier.isLatest then
    if to_identifier ≠ .null then .error .assertionError
    else .error .interfaceError
  else if to_identifier.isLatest then
    .ok (((sortByIdent (·.identifier) tbl).filter
          (fun r => from_identifier.getInt ≤ r.identifier)).map (·.data))
  else
    .ok (((sortByIdent (·.identifier) tbl).filter
          (fun r => from_identifier.getInt ≤ r.identifier ∧
                    r.identifier ≤ to_identifier.getInt)).map (·.data))

/-- SQLiteStorage.get_snapshot_closest_to_state_change (sqlite.py lines
250-284). Validates the bound, resolves "latest" to the greatest
state-change identifier (0 when the state_changes table is empty), then
selects from state_snapshot WHERE statechange_id <= bound ORDER BY
identifier DESC LIMIT 1, returning (0, None) when no row qualifies. -/
def get_snapshot_closest_to_state_change (snaps : List SnapshotRow)
    (scs : List StateChangeRow) (bound : Bound) :
    Except DBErr (Int × Option Bytes) :=
  if !(bound.isLatest || bound.isInt) then .error .valueError
  else
    let n : Int :=
      if bound.isLatest then
        match selectMaxByIdent (·.identifier) scs with
        | some r => r.identifier
        | none => 0
      else bound.getInt
    match selectMaxByIdent (·.identifier)
        (snaps.filter (fun r => r.statechange_id ≤ n)) with
    | some r => .ok (r.statechange_id, some r.data)
    | none => .ok (0, none)

/-- SQLiteStorage._get_event_type_query (sqlite.py lines 680-693): the list
of event _type values the payment query restricts to; 1, 2, 3 select the
received-success, sent-failed, sent-success singleton respectively, any
other argument (including None) keeps all three. -/
def _get_event_type_query (event_type : Option Int) : List String :=
  let event_type_result :=
    ["raiden.transfer.events.EventPaymentReceivedSuccess",
     "raiden.transfer.events.EventPaymentSentFailed",
     "raiden.transfer.events.EventPaymentSentSuccess"]
  if event_type = some 1 then [event_type_result.getD 0 ""]
  else if event_type = some 2 then [event_type_result.getD 1 ""]
  else if event_type = some 3 then [event_type_result.getD 2 ""]
  else event_type_result

/-- The event-type selection logic of SQLiteStorage._get_query_with_values
(sqlite.py lines 628-641): starts from the explicit event_type filter,
then overrides it with received-only when the target address equals our
address case-insensitively, and after that with sent-success-only when
the initiator address equals our address case-insensitively. The
resulting list is interpolated into the IN (...) clause of the payment
query and so determines exactly which event types the query matches. -/
def payment_event_type_values (our_address : String)
    (initiator_address target_address : Option String)
    (event_type : Option Int) : List String :=
  let r0 := _get_event_type_query event_type
  let r1 :=
    match target_address with
    | some t =>
      if t.toLower = our_address.toLower then _get_event_type_query (some 1) else r0
    | none => r0
  match initiator_address with
  | some i =>
    if i.toLower = our_address.toLower then _get_event_type_query (some 3) else r1
  | none => r1

/-- Atomic steps observable on the storage connection, for the locking
discipline of the mutating methods. -/
inductive LockAction where
  | acquire
  | release
  | sqlExec
  | commit
deriving Repr, DecidableEq

/-- Action trace of SQLiteStorage.write_state_change (sqlite.py lines
145-153): the statement and its commit run inside the write-lock scope
(the connection context manager commits before the lock is released). -/
def write_state_change_trace : List LockAction :=
  [.acquire, .sqlExec, .commit, .release]

/-- Action trace of SQLiteStorage.write_state_snapshot (lines 155-163). -/
def write_state_snapshot_trace : List LockAction :=
  [.acquire, .sqlExec, .commit, .release]

/-- Action trace of SQLiteStorage.write_events (lines 211-223). -/
def write_events_trace : List LockAction :=
  [.acquire, .sqlExec, .commit, .release]

/-- Action trace of SQLiteStorage.maybe_commit (lines 767-769): commits
only when no explicit transaction scope is active. -/
def maybe_commit_trace (in_transaction : Bool) : List LockAction :=
  if in_transaction then [] else [.commit]

/-- Action trace of SQLiteStorage.update_state_changes (lines 424-430):
executemany followed by maybe_commit, with no lock acquisition. -/
def update_state_changes_trace (in_transaction : Bool) : List LockAction :=
  .sqlExec :: maybe_commit_trace in_transaction

/-- Action trace of SQLiteStorage.update_events (lines 520-524). -/
def update_events_trace (in_transaction : Bool) : List LockAction :=
  .sqlExec :: maybe_commit_trace in_transaction

/-- Action trace of SQLiteStorage.update_snapshots (lines 758-765). -/
def update_snapshots_trace (in_transaction : Bool) : List LockAction :=
  .sqlExec :: maybe_commit_trace in_transaction

/-- Value bound as a SQL statement parameter. -/
inductive SQLVal where
  | s (v : String)
  | i (v : Int)
deriving Repr, DecidableEq

/-- Python value inside a nested filter dictionary: either a scalar leaf
or a nested dictionary (modelled as an association list, matching the
insertion order of Python dict iteration). -/
inductive JVal where
  | leaf (v : SQLVal)
  | node (entries : List (String × JVal))

/-- The _filter_from_dict helper (sqlite.py lines 52-63): flattens a
nested filter dictionary into dotted key paths paired with the leaf
values, preserving iteration order. -/
def _filter_from_dict : List (String × JVal) → List (String × SQLVal)
  | [] => []
  | (k, .leaf v) :: rest => (k, v) :: _filter_from_dict rest
  | (k, .node d) :: rest =>
    (_filter_from_dict d).map (fun p => (k ++ "." ++ p.1, p.2)) ++
      _filter_from_dict rest

/-- The _sanitize_limit_and_offset helper (sqlite.py lines 40-49): rejects
negative limit or offset with InvalidNumberInput, then substitutes the
defaults -1 (unbounded) and 0. Non-int arguments, also rejected by the
source, cannot arise in this typed embedding. -/
def _sanitize_limit_and_offset (limit offset : Option Int) :
    Except DBErr (Int × Int) :=
  match limit with
  | some l =>
    if l < 0 then .error .invalidNumberInput
    else
      match offset with
      | some o =>
        if o < 0 then .error .invalidNumberInput else .ok (l, o)
      | none => .ok (l, 0)
  | none =>
    match offset with
    | some o =>
      if o < 0 then .error .invalidNumberInput else .ok (-1, o)
    | none => .ok (-1, 0)

/-- The loop body of SQLiteStorage._form_and_execute_json_query (sqlite.py
lines 332-336): for every filter entry append the clause text
"json_extract(data, ?) LIKE ?" and push the path (prefixed with the JSON
root "$.") and the value onto the argument list. -/
def likeClausesAndArgs : List (String × SQLVal) → List String × List SQLVal
  | [] => ([], [])
  | (field, value) :: rest =>
    let tail := likeClausesAndArgs rest
    ("json_extract(data, ?) LIKE ?" :: tail.1,
     SQLVal.s ("$." ++ field) :: value :: tail.2)

/-- SQLiteStorage._form_and_execute_json_query (sqlite.py lines 320-348),
up to the point where the assembled SQL text and parameters are handed to
cursor.execute: sanitizes limit/offset, joins the per-filter clauses with
" AND " or " OR " after a WHERE (omitted when there are no filters), and
appends the ordering and paging suffix together with the limit and offset
parameters. The concatenations reproduce the source strings exactly,
including the missing space before ORDER BY. -/
def _form_and_execute_json_query (query : String) (limit offset : Option Int)
    (filters : List (String × SQLVal)) (logical_and : Bool) :
    Except DBErr (String × List SQLVal) :=
  match _sanitize_limit_and_offset limit offset with
  | .error e => .error e
  | .ok (l, o) =>
    let built := likeClausesAndArgs filters
    let query :=
      if filters.isEmpty then query
      else
        query ++ "WHERE " ++
          String.intercalate (if logical_and then " AND " else " OR ") built.1
    let query := query ++ "ORDER BY identifier ASC LIMIT ? OFFSET ?"
    .ok (query, built.2 ++ [SQLVal.i l, SQLVal.i o])

/-- In-memory model of the database: the three replay-relevant tables
plus the in_transaction flag of the connection wrapper. -/
structure Storage where
  state_changes : List StateChangeRow
  state_events : List EventRow
  state_snapshot : List SnapshotRow
  in_transaction : Bool
deriving Repr, DecidableEq

/-- A freshly opened store: empty tables, no transaction in progress. -/
def emptyStorage : Storage := ⟨[], [], [], Bool.false⟩

/-- Rowid assigned by sqlite to INSERT ... VALUES(null, ...): one more
than the greatest rowid present in the table (0 when empty), which is
what cursor.lastrowid then reports. -/
def maxRowid (rows : List StateChangeRow) : Int :=
  rows.foldl (fun m r => max m r.identifier) 0

/-- SQLiteStorage.write_state_change (sqlite.py lines 145-153): inserts a
row with a store-assigned identifier and returns that identifier. -/
def write_state_change (st : Storage) (state_change : Bytes)
    (log_time : String) : Storage × Int :=
  let last_id := maxRowid st.state_changes + 1
  ({ st with
      state_changes := st.state_changes ++ [⟨last_id, state_change, log_time⟩] },
   last_id)

/-- SQLiteStorage.count_state_changes (sqlite.py lines 135-143):
SELECT COUNT(1) FROM state_changes. -/
def count_state_changes (st : Storage) : Int :=
  st.state_changes.length

/-- Sequence of write_state_change calls threading the store, collecting
the returned identifiers in call order. -/
def write_state_changes (st : Storage) :
    List (Bytes × String) → Storage × List Int
  | [] => (st, [])
  | (d, t) :: rest =>
    let step := write_state_change st d t
    let tail := write_state_changes step.1 rest
    (tail.1, step.2 :: tail.2)

/-- SQLiteStorage.delete_state_changes (sqlite.py lines 225-233): despite
its name and its list of state-change identifiers, it executes
DELETE FROM state_events WHERE identifier = ? once per given identifier. -/
def delete_state_changes (st : Storage)
    (state_changes_to_delete : List Int) : Storage :=
  state_changes_to_delete.foldl
    (fun s i =>
      { s with state_events := s.state_events.filter (fun e => e.identifier ≠ i) })
    st

/-- SQL statements observable inside a transaction scope. -/
inductive TxAction where
  | begin
  | commit
  | rollback
deriving Repr, DecidableEq

/-- Outcome of running a transaction scope: the propagated result, the
database state visible to readers afterwards, and the trace of
transaction-control statements executed. -/
structure TxOutcome where
  result : Except DBErr Unit
  db : Storage
  trace : List TxAction
deriving Repr

/-- SQLiteStorage.transaction (sqlite.py lines 771-783): sets the
in_transaction flag, executes BEGIN, runs the body; on success executes
COMMIT (making the body's writes visible), on any error executes ROLLBACK
(discarding the body's uncommitted writes) and re-raises; the finally
block clears the in_transaction flag either way. The body is any program
over the store that may fail; until COMMIT its writes are only pending. -/
def transaction (st : Storage) (body : Storage → Except DBErr Storage) :
    TxOutcome :=
  match body { st with in_transaction := Bool.true } with
  | .ok st2 =>
    { result := .ok ()
      db := { st2 with in_transaction := Bool.false }
      trace := [.begin, .commit] }
  | .error e =>
    { result := .error e
      db := { st with in_transaction := Bool.false }
      trace := [.begin, .rollback] }

/-- LIMIT/OFFSET execution on an ordered, filtered result set: a negative
limit means unbounded (sqlite's LIMIT -1), mirroring the sanitized
defaults. -/
def sqlPage (rows : List α) (limit offset : Int) : List α :=
  if limit < 0 then rows.drop offset.toNat
  else (rows.drop offset.toNat).take limit.toNat

/-- SQLiteStorage._get_state_changes (sqlite.py lines 383-404): runs the
JSON-filtered query over state_changes with ORDER BY identifier ASC
LIMIT ? OFFSET ?. The WHERE clause built from the filters is evaluated by
sqlite's json_extract and LIKE, which are external to this repository, so
it is abstracted as the row predicate pred. -/
def _get_state_changes (tbl : List StateChangeRow)
    (pred : StateChangeRow → Bool) (limit offset : Option Int) :
    Except DBErr (List StateChangeRow) :=
  match _sanitize_limit_and_offset limit offset with
  | .error e => .error e
  | .ok (l, o) => .ok (sqlPage ((sortByIdent (·.identifier) tbl).filter pred) l o)

/-- SQLiteStorage._get_event_records (sqlite.py lines 476-500): the same
filtered, ordered, paged query over state_events. -/
def _get_event_records (tbl : List EventRow) (pred : EventRow → Bool)
    (limit offset : Option Int) : Except DBErr (List EventRow) :=
  match _sanitize_limit_and_offset limit offset with
  | .error e => .error e
  | .ok (l, o) => .ok (sqlPage ((sortByIdent (·.identifier) tbl).filter pred) l o)

/-- The generator loop shared by batch_query_state_changes and
batch_query_event_records (sqlite.py lines 406-422 and 502-518): starting
from offset 0, fetch a page of at most batch rows at the current offset,
yield it, advance the offset by the number of rows actually returned, and
stop after the first page of length zero (which is itself yielded). -/
def batchGo (rows : List α) (batch : Nat) (offset : Nat) : List (List α) :=
  if _h : ((rows.drop offset).take batch).length = 0 then
    [(rows.drop offset).take batch]
  else
    ((rows.drop offset).take batch) ::
      batchGo rows batch (offset + ((rows.drop offset).take batch).length)
termination_by rows.length - offset
decreasing_by
  simp only [List.length_take, List.length_drop] at *
  omega

/-- The full page list produced by batch_query_state_changes for a given
table, compiled filter predicate and batch size. -/
def statePagesOf (tbl : List StateChangeRow) (pred : StateChangeRow → Bool)
    (batch : Nat) : List (List StateChangeRow) :=
  batchGo ((sortByIdent (·.identifier) tbl).filter pred) batch 0

/-- The full page list produced by batch_query_event_records. -/
def eventPagesOf (tbl : List EventRow) (pred : EventRow → Bool)
    (batch : Nat) : List (List EventRow) :=
  batchGo ((sortByIdent (·.identifier) tbl).filter pred) batch 0

/-- SQLiteStorage.batch_query_state_changes (sqlite.py lines 406-422):
each iteration calls _get_state_changes with limit = batch_size, whose
sanitizer raises InvalidNumberInput on the first iteration when
batch_size is negative; otherwise the loop yields the page sequence. -/
def batch_query_state_changes (tbl : List StateChangeRow)
    (pred : StateChangeRow → Bool) (batch_size : Int) :
    Except DBErr (List (List StateChangeRow)) :=
  if batch_size < 0 then .error .invalidNumberInput
  else .ok (statePagesOf tbl pred batch_size.toNat)

/-- SQLiteStorage.batch_query_event_records (sqlite.py lines 502-518). -/
def batch_query_event_records (tbl : List EventRow)
    (pred : EventRow → Bool) (batch_size : Int) :
    Except DBErr (List (List EventRow)) :=
  if batch_size < 0 then .error .invalidNumberInput
  else .ok (eventPagesOf tbl pred batch_size.toNat)

/-! Helper lemmas about the sort model. -/

theorem sortByIdent_eq_of_sorted (identOf : α → Int) :
    ∀ l : List α, l.Pairwise (fun a b => identOf a < identOf b) →
      sortByIdent identOf l = l := by
  intro l hl
  induction l with
  | nil => rfl
  | cons x xs ih =>
    rw [List.pairwise_cons] at hl
    rw [sortByIdent, ih hl.2]
    cases xs with
    | nil => rfl
    | cons y ys =>
      have hxy : identOf x ≤ identOf y := le_of_lt (hl.1 y (by simp))
      simp [insertByIdent, hxy]

theorem getLast?_mem_max (identOf : α → Int) :
    ∀ (l : List α), l.Pairwise (fun a b => identOf a < identOf b) →
      ∀ r, l.getLast? = some r → r ∈ l ∧ ∀ x ∈ l, identOf x ≤ identOf r := by
  intro l
  induction l with
  | nil => intro _ r h; simp at h
  | cons x xs ih =>
    intro hl r hr
    rw [List.pairwise_cons] at hl
    cases xs with
    | nil =>
      simp at hr
      subst hr
      simp
    | cons y ys =>
      rw [List.getLast?_cons_cons] at hr
      obtain ⟨hmem, hmax⟩ := ih hl.2 r hr
      refine ⟨List.mem_cons_of_mem _ hmem, ?_⟩
      intro z hz
      rcases List.mem_cons.mp hz with hz | hz
      · subst hz
        exact le_of_lt (hl.1 r hmem)
      · exact hmax z hz

theorem getLast?_eq_none_iff_nil (l : List α) : l.getLast? = none ↔ l = [] := by
  cases l with
  | nil => simp
  | cons x xs => simp [List.getLast?_eq_getLast]

/-! Claim C1. -/

/-- C1: get_statechanges_by_identifier fails on the documented
replayRange("latest", None) call. The second validation rejects
to_identifier = None with ValueError before the function's own
"assert to_identifier is None" can run, so the latest-only fetch is
unreachable and the call raises instead of returning the single most
recent state change (here the payload "only"); ordinary integer bounds
still work on the same table. -/
theorem get_statechanges_latest_none_raises :
    get_statechanges_by_identifier [⟨1, "only", "t1"⟩] (.str "latest") .null =
      .error .valueError ∧
    get_statechanges_by_identifier [⟨1, "only", "t1"⟩] (.int 1) (.int 1) =
      .ok ["only"] :=
  ⟨rfl, rfl⟩

/-! Claim C2. -/

/-- C2 counterexample: the snapshot query orders by the snapshot's own
identifier, not by statechange_id. With snapshots (identifier 1,
statechange_id 5) and (identifier 2, statechange_id 3), the call with
bound 10 returns the pair with statechange_id 3 even though the snapshot
with statechange_id 5 also satisfies 5 <= 10, refuting the claim that the
greatest qualifying statechange_id is returned. -/
theorem get_snapshot_closest_ignores_statechange_id :
    get_snapshot_closest_to_state_change
        [⟨1, 5, "a"⟩, ⟨2, 3, "b"⟩] [] (.int 10) = .ok (3, some "b") ∧
    (⟨1, 5, "a"⟩ : SnapshotRow) ∈ [(⟨1, 5, "a"⟩ : SnapshotRow), ⟨2, 3, "b"⟩] ∧
    (5 : Int) ≤ 10 ∧ (3 : Int) < 5 :=
  ⟨rfl, by decide⟩

/-- C2 (amended): on tables whose snapshot rows are strictly ordered by
their identifiers (as produced by the append-only writer),
get_snapshot_closest_to_state_change n returns the (statechange_id, data)
pair of the most recently written snapshot (greatest internal identifier)
among those with statechange_id ≤ n — which coincides with the greatest
statechange_id ≤ n only when statechange_ids are nondecreasing in write
order — or (0, None) when no snapshot qualifies; "latest" first resolves
the bound to the current maximum state-change identifier (0 when the
state_changes table is empty); any other string, or None, raises
ValueError. -/
theorem get_snapshot_closest_spec
    (snaps : List SnapshotRow) (scs : List StateChangeRow)
    (hs : snaps.Pairwise (fun a b => a.identifier < b.identifier))
    (hc : scs.Pairwise (fun a b => a.identifier < b.identifier)) :
    (∀ n : Int,
      (∃ r, r ∈ snaps ∧ r.statechange_id ≤ n ∧
        get_snapshot_closest_to_state_change snaps scs (.int n) =
          .ok (r.statechange_id, some r.data) ∧
        ∀ r', r' ∈ snaps → r'.statechange_id ≤ n →
          r'.identifier ≤ r.identifier) ∨
      ((∀ r, r ∈ snaps → n < r.statechange_id) ∧
        get_snapshot_closest_to_state_change snaps scs (.int n) =
          .ok (0, none))) ∧
    (∃ m : Int,
      (∀ r, r ∈ scs → r.identifier ≤ m) ∧
      (scs = [] → m = 0) ∧
      (scs ≠ [] → ∃ r, r ∈ scs ∧ r.identifier = m) ∧
      get_snapshot_closest_to_state_change snaps scs (.str "latest") =
        get_snapshot_closest_to_state_change snaps scs (.int m)) ∧
    (∀ s : String, s ≠ "latest" →
      get_snapshot_closest_to_state_change snaps scs (.str s) =
        .error .valueError) ∧
    get_snapshot_closest_to_state_change snaps scs .null =
      .error .valueError := by
  refine ⟨?_, ?_, ?_, ?_⟩
  · intro n
    have hsub : (snaps.filter (fun r => r.statechange_id ≤ n)).Sublist snaps :=
      List.filter_sublist snaps
    have hF : (snaps.filter (fun r => r.statechange_id ≤ n)).Pairwise
        (fun a b => a.identifier < b.identifier) := hs.sublist hsub
    have hsel : selectMaxByIdent (fun r => r.identifier)
        (snaps.filter (fun r => r.statechange_id ≤ n)) =
        (snaps.filter (fun r => r.statechange_id ≤ n)).getLast? := by
      rw [selectMaxByIdent, sortByIdent_eq_of_sorted _ _ hF]
    cases hlast : (snaps.filter (fun r => r.statechange_id ≤ n)).getLast? with
    | some r =>
      left
      obtain ⟨hmem, hmax⟩ := getLast?_mem_max _ _ hF r hlast
      have hr := List.mem_filter.mp hmem
      refine ⟨r, hr.1, by simpa using hr.2, ?_, ?_⟩
      · simp [get_snapshot_closest_to_state_change, Bound.isLatest,
          Bound.isInt, Bound.getInt, hsel, hlast]
      · intro r' hr' hle
        exact hmax r' (List.mem_filter.mpr ⟨hr', by simpa using hle⟩)
    | none =>
      right
      have hnil : snaps.filter (fun r => r.statechange_id ≤ n) = [] :=
        (getLast?_eq_none_iff_nil _).mp hlast
      constructor
      · intro r hr
        by_contra hlt
        push_neg at hlt
        have : r ∈ snaps.filter (fun r => r.statechange_id ≤ n) :=
          List.mem_filter.mpr ⟨hr, by simpa using hlt⟩
        simp [hnil] at this
      · simp [get_snapshot_closest_to_state_change, Bound.isLatest,
          Bound.isInt, Bound.getInt, hsel, hlast]
  · have hsel : selectMaxByIdent (fun r => r.identifier) scs = scs.getLast? := by
      rw [selectMaxByIdent, sortByIdent_eq_of_sorted _ _ hc]
    cases hlast : scs.getLast? with
    | some r =>
      obtain ⟨hmem, hmax⟩ := getLast?_mem_max _ _ hc r hlast
      refine ⟨r.identifier, hmax, ?_, fun _ => ⟨r, hmem, rfl⟩, ?_⟩
      · intro h
        subst h
        simp at hmem
      · simp [get_snapshot_closest_to_state_change, Bound.isLatest,
          Bound.isInt, Bound.getInt, hsel, hlast]
    | none =>
      have hnil : scs = [] := (getLast?_eq_none_iff_nil _).mp hlast
      refine ⟨0, ?_, fun _ => rfl, ?_, ?_⟩
      · intro r hr
        rw [hnil] at hr
        simp at hr
      · intro h
        exact absurd hnil h
      · simp [get_snapshot_closest_to_state_change, Bound.isLatest,
          Bound.isInt, Bound.getInt, hsel, hlast]
  · intro s hslt
    simp [get_snapshot_closest_to_state_change, Bound.isLatest, Bound.isInt,
      hslt]
  · rfl

/-- C2 witness: on the empty snapshot table the amended theorem yields
the sentinel (0, None) result for bound 0. -/
theorem get_snapshot_closest_spec_witness :
    get_snapshot_closest_to_state_change [] [] (.int 0) = .ok (0, none) := by
  rcases (get_snapshot_closest_spec [] [] (by simp) (by simp)).1 0 with
    ⟨r, hr, _⟩ | ⟨_, heq⟩
  · simp at hr
  · exact heq

/-! Claim C3. -/

/-- C3 counterexample: the migration-time bulk operations
update_state_changes, update_events and update_snapshots run their
statements and commit without ever acquiring the process-wide write lock
(their traces contain no acquire action), refuting the claim that every
mutating operation serializes through the lock. -/
theorem update_ops_do_not_acquire_lock :
    LockAction.acquire ∉ update_state_changes_trace Bool.false ∧
    LockAction.acquire ∉ update_events_trace Bool.false ∧
    LockAction.acquire ∉ update_snapshots_trace Bool.false := by
  decide

/-- C3 (amended): the steady-state mutating operations write_state_change,
write_state_snapshot and write_events each hold the exclusive write lock
for the whole write-plus-commit (their traces start by acquiring the
lock, end by releasing it, and place the statement and its commit in
between), whereas the migration-only bulk operations
update_state_changes, update_events and update_snapshots never touch the
lock, whether or not a transaction scope is active. -/
theorem write_lock_discipline :
    (write_state_change_trace.head? = some LockAction.acquire ∧
     write_state_change_trace.getLast? = some LockAction.release ∧
     LockAction.sqlExec ∈ write_state_change_trace ∧
     LockAction.commit ∈ write_state_change_trace) ∧
    (write_state_snapshot_trace.head? = some LockAction.acquire ∧
     write_state_snapshot_trace.getLast? = some LockAction.release ∧
     LockAction.sqlExec ∈ write_state_snapshot_trace ∧
     LockAction.commit ∈ write_state_snapshot_trace) ∧
    (write_events_trace.head? = some LockAction.acquire ∧
     write_events_trace.getLast? = some LockAction.release ∧
     LockAction.sqlExec ∈ write_events_trace ∧
     LockAction.commit ∈ write_events_trace) ∧
    (∀ b : Bool,
      LockAction.acquire ∉ update_state_changes_trace b ∧
      LockAction.release ∉ update_state_changes_trace b ∧
      LockAction.acquire ∉ update_events_trace b ∧
      LockAction.release ∉ update_events_trace b ∧
      LockAction.acquire ∉ update_snapshots_trace b ∧
      LockAction.release ∉ update_snapshots_trace b) := by
  refine ⟨by decide, by decide, by decide, ?_⟩
  intro b
  cases b <;> decide

/-! Claim C5. -/

/-- C5 counterexample: a payment-event query in which the target address
equals our address but the initiator address does as well (a payment to
self). The target rule sets the received-only restriction, but the
initiator rule then overwrites it, so the generated IN clause matches
only EventPaymentSentSuccess, not the received events the claim demands
for every query with target equal to our address — here even though an
explicit sent-failed filter (event_type 2) was also supplied. -/
theorem payment_event_override_conflict :
    payment_event_type_values "a" (some "a") (some "a") (some 2) =
      ["raiden.transfer.events.EventPaymentSentSuccess"] ∧
    ["raiden.transfer.events.EventPaymentSentSuccess"] ≠
      ["raiden.transfer.events.EventPaymentReceivedSuccess"] := by
  constructor
  · unfold payment_event_type_values
    simp [_get_event_type_query]
  · decide

/-- C5 (amended): when the target address is non-None and equals our
address case-insensitively, the payment query is restricted to
EventPaymentReceivedSuccess regardless of any explicit event_type filter,
provided the initiator address is None or differs from our address (when
both coincide the later initiator rule wins); and whenever the initiator
address is non-None and equals our address case-insensitively, the query
is restricted to the sent event EventPaymentSentSuccess, again regardless
of any explicit event_type filter. -/
theorem payment_event_override_spec :
    (∀ (our t : String) (initiator : Option String) (event_type : Option Int),
      t.toLower = our.toLower →
      (∀ i, initiator = some i → i.toLower ≠ our.toLower) →
      payment_event_type_values our initiator (some t) event_type =
        ["raiden.transfer.events.EventPaymentReceivedSuccess"]) ∧
    (∀ (our i : String) (target : Option String) (event_type : Option Int),
      i.toLower = our.toLower →
      payment_event_type_values our (some i) target event_type =
        ["raiden.transfer.events.EventPaymentSentSuccess"]) := by
  constructor
  · intro our t initiator event_type ht hi
    unfold payment_event_type_values
    cases initiator with
    | none => simp [ht, _get_event_type_query]
    | some i => simp [ht, hi i rfl, _get_event_type_query]
  · intro our i target event_type hi
    unfold payment_event_type_values
    simp [hi, _get_event_type_query]

/-- C5 witness: with our address "a", a query targeting "a" with an
explicit sent-success filter still restricts to received events, and a
query initiated by "a" restricts to sent-success events. -/
theorem payment_event_override_spec_witness :
    payment_event_type_values "a" none (some "a") (some 3) =
      ["raiden.transfer.events.EventPaymentReceivedSuccess"] ∧
    payment_event_type_values "a" (some "a") none (some 1) =
      ["raiden.transfer.events.EventPaymentSentSuccess"] :=
  ⟨payment_event_override_spec.1 "a" "a" none (some 3) rfl
      (fun _ h => nomatch h),
   payment_event_override_spec.2 "a" "a" none (some 1) rfl⟩

/-! Claim C4. -/

theorem likeClausesAndArgs_eq (L : List (String × SQLVal)) :
    likeClausesAndArgs L =
      (L.map (fun _ => "json_extract(data, ?) LIKE ?"),
       (L.map (fun fv => [SQLVal.s ("$." ++ fv.1), fv.2])).flatten) := by
  induction L with
  | nil => rfl
  | cons p rest ih =>
    obtain ⟨f, v⟩ := p
    simp [likeClausesAndArgs, ih]

/-- C4 counterexample: for the filter list with the single leaf "a" = "1",
the query built by _form_and_execute_json_query contains the pattern
clause "json_extract(data, ?) LIKE ?", not the equality clause
"json_extract(data, ?)=?" used elsewhere in the source and asserted by
the claim: the two query texts differ. -/
theorem form_json_query_uses_like_not_equality :
    _form_and_execute_json_query "SELECT identifier, data FROM state_changes "
        (some 1) (some 0) [("a", SQLVal.s "1")] Bool.true =
      .ok ("SELECT identifier, data FROM state_changes WHERE json_extract(data, ?) LIKE ?ORDER BY identifier ASC LIMIT ? OFFSET ?",
        [SQLVal.s "$.a", SQLVal.s "1", SQLVal.i 1, SQLVal.i 0]) ∧
    "SELECT identifier, data FROM state_changes WHERE json_extract(data, ?) LIKE ?ORDER BY identifier ASC LIMIT ? OFFSET ?" ≠
      "SELECT identifier, data FROM state_changes WHERE json_extract(data, ?)=?ORDER BY identifier ASC LIMIT ? OFFSET ?" :=
  ⟨rfl, by decide⟩

/-- C4 (amended): for every nested filter mapping, the query construction
builds one LIKE clause (not an equality clause) per flattened dotted-path
leaf, comparing the JSON value extracted from the data column at the
"$."-prefixed path against the filter value, joins the clauses with
" AND " or " OR " as requested after WHERE, and appends
"ORDER BY identifier ASC LIMIT ? OFFSET ?" with the sanitized limit and
offset as the final two parameters; flattening maps the nested mapping
a -> (b -> 1) to the single leaf "a.b" = 1. -/
theorem form_json_query_spec
    (base : String) (d : List (String × JVal)) (logical_and : Bool)
    (l o : Int) (hl : 0 ≤ l) (ho : 0 ≤ o)
    (hne : _filter_from_dict d ≠ []) :
    _form_and_execute_json_query base (some l) (some o)
        (_filter_from_dict d) logical_and =
      .ok (base ++ "WHERE " ++
          String.intercalate (if logical_and then " AND " else " OR ")
            ((_filter_from_dict d).map
              (fun _ => "json_extract(data, ?) LIKE ?")) ++
          "ORDER BY identifier ASC LIMIT ? OFFSET ?",
        ((_filter_from_dict d).map
            (fun fv => [SQLVal.s ("$." ++ fv.1), fv.2])).flatten ++
          [SQLVal.i l, SQLVal.i o]) ∧
    _filter_from_dict [("a", .node [("b", .leaf (.i 1))])] =
      [("a.b", SQLVal.i 1)] := by
  constructor
  · have hsan : _sanitize_limit_and_offset (some l) (some o) = .ok (l, o) := by
      simp [_sanitize_limit_and_offset, not_lt.mpr hl, not_lt.mpr ho]
    have hempty : (_filter_from_dict d).isEmpty = false := by
      cases hd : _filter_from_dict d with
      | nil => exact absurd hd hne
      | cons x xs => simp
    simp [_form_and_execute_json_query, hsan, hempty, likeClausesAndArgs_eq]
  · simp [_filter_from_dict]

/-- C4 witness: the amended construction at the concrete nested filter
a -> (b -> 1) with limit 5, offset 2 and AND combination. -/
theorem form_json_query_spec_witness :
    _form_and_execute_json_query "SELECT identifier, data FROM state_changes "
        (some 5) (some 2)
        (_filter_from_dict [("a", .node [("b", .leaf (.i 1))])]) Bool.true =
      .ok ("SELECT identifier, data FROM state_changes " ++ "WHERE " ++
          String.intercalate " AND "
            ((_filter_from_dict [("a", .node [("b", .leaf (.i 1))])]).map
              (fun _ => "json_extract(data, ?) LIKE ?")) ++
          "ORDER BY identifier ASC LIMIT ? OFFSET ?",
        ((_filter_from_dict [("a", .node [("b", .leaf (.i 1))])]).map
            (fun fv => [SQLVal.s ("$." ++ fv.1), fv.2])).flatten ++
          [SQLVal.i 5, SQLVal.i 2]) := by
  have h := form_json_query_spec "SELECT identifier, data FROM state_changes "
    [("a", .node [("b", .leaf (.i 1))])] Bool.true 5 2 (by norm_num)
    (by norm_num) (by simp [_filter_from_dict])
  simpa using h.1

/-! Claim C7. -/

/-- C7: every error raised inside a transaction scope propagates to the
caller only after the ROLLBACK statement has run (the trace contains the
rollback and no commit) and leaves the committed state exactly as it was
when the scope was entered; normal exit commits exactly once, makes the
body's writes visible, and never rolls back; the in_transaction flag is
cleared on both paths. -/
theorem transaction_rollback_commit_spec (st : Storage)
    (body : Storage → Except DBErr Storage) :
    (∀ e, (transaction st body).result = .error e →
      (transaction st body).db.state_changes = st.state_changes ∧
      (transaction st body).db.state_events = st.state_events ∧
      (transaction st body).db.state_snapshot = st.state_snapshot ∧
      TxAction.rollback ∈ (transaction st body).trace ∧
      TxAction.commit ∉ (transaction st body).trace ∧
      body { st with in_transaction := Bool.true } = .error e) ∧
    (∀ st2, body { st with in_transaction := Bool.true } = .ok st2 →
      (transaction st body).result = .ok () ∧
      (transaction st body).db.state_changes = st2.state_changes ∧
      (transaction st body).db.state_events = st2.state_events ∧
      (transaction st body).db.state_snapshot = st2.state_snapshot ∧
      (transaction st body).trace.count TxAction.commit = 1 ∧
      TxAction.rollback ∉ (transaction st body).trace) ∧
    (transaction st body).db.in_transaction = Bool.false := by
  cases hb : body { st with in_transaction := Bool.true } with
  | ok st2 =>
    refine ⟨fun e he => ?_, fun st2' h2 => ?_, ?_⟩
    · simp [transaction, hb] at he
    · cases h2
      simp [transaction, hb, List.count_cons]
    · simp [transaction, hb]
  | error e0 =>
    refine ⟨fun e he => ?_, fun st2' h2 => ?_, ?_⟩
    · have : e = e0 := by
        simp [transaction, hb] at he
        exact he.symm
      subst this
      simp [transaction, hb]
    · cases h2
    · simp [transaction, hb]

/-- C7 witness: a failing body leaves the committed tables of the empty
store untouched and the rollback appears in the trace. -/
theorem transaction_rollback_commit_spec_witness :
    (transaction emptyStorage
        (fun _ => .error .valueError)).db.state_changes =
      emptyStorage.state_changes ∧
    TxAction.rollback ∈
      (transaction emptyStorage (fun _ => .error .valueError)).trace := by
  have h := (transaction_rollback_commit_spec emptyStorage
    (fun _ => .error .valueError)).1 .valueError rfl
  exact ⟨h.1, h.2.2.2.1⟩

/-! Claim C8. -/

theorem maxRowid_append (l : List StateChangeRow) (r : StateChangeRow) :
    maxRowid (l ++ [r]) = max (maxRowid l) r.identifier := by
  simp [maxRowid, List.foldl_append]

theorem write_state_changes_general (xs : List (Bytes × String)) :
    ∀ st : Storage,
      (write_state_changes st xs).2 =
        (List.range xs.length).map
          (fun k : Nat => maxRowid st.state_changes + 1 + (k : Int)) ∧
      (write_state_changes st xs).1.state_changes.length =
        st.state_changes.length + xs.length := by
  induction xs with
  | nil => intro st; simp [write_state_changes]
  | cons p rest ih =>
    intro st
    obtain ⟨d, t⟩ := p
    have hmax : maxRowid (write_state_change st d t).1.state_changes =
        maxRowid st.state_changes + 1 := by
      simp [write_state_change, maxRowid_append]
    have hlen : (write_state_change st d t).1.state_changes.length =
        st.state_changes.length + 1 := by
      simp [write_state_change]
    obtain ⟨ih1, ih2⟩ := ih (write_state_change st d t).1
    constructor
    · show (write_state_change st d t).2 ::
          (write_state_changes (write_state_change st d t).1 rest).2 = _
      rw [ih1, hmax, List.length_cons, List.range_succ_eq_map,
        List.map_cons, List.map_map]
      congr 1
      · simp [write_state_change]
      · apply List.map_congr_left
        intro k _
        simp
        ring
    · show (write_state_changes (write_state_change st d t).1 rest).1.state_changes.length = _
      rw [ih2, hlen, List.length_cons]
      omega

/-- C8: starting from a fresh store, a sequence of write_state_change
calls returns exactly the identifiers 1, 2, ..., n in order (strictly
increasing and gapless), and count_state_changes afterwards equals the
number of successful appends. -/
theorem write_state_change_ids_spec (xs : List (Bytes × String)) :
    (write_state_changes emptyStorage xs).2 =
      (List.range xs.length).map (fun k : Nat => (k : Int) + 1) ∧
    List.Chain' (· < ·) (write_state_changes emptyStorage xs).2 ∧
    count_state_changes (write_state_changes emptyStorage xs).1 =
      xs.length := by
  obtain ⟨hid, hlen⟩ := write_state_changes_general xs emptyStorage
  have hform : (write_state_changes emptyStorage xs).2 =
      (List.range xs.length).map (fun k : Nat => (k : Int) + 1) := by
    rw [hid]
    apply List.map_congr_left
    intro k _
    show maxRowid emptyStorage.state_changes + 1 + (k : Int) = (k : Int) + 1
    simp [maxRowid, emptyStorage]
    ring
  refine ⟨hform, ?_, ?_⟩
  · rw [hform]
    apply List.Pairwise.chain'
    apply List.Pairwise.map
    · intro a b hab
      have : (a : Int) < (b : Int) := by exact_mod_cast hab
      linarith
    · exact List.pairwise_lt_range _
  · have h2 : (write_state_changes emptyStorage xs).1.state_changes.length =
        xs.length := by
      rw [hlen]
      simp [emptyStorage]
    simp [count_state_changes, h2]

/-! Claim C9. -/

/-- C9: delete_state_changes, given a list of state-change identifiers,
removes exactly the state_events rows whose identifier is in the list and
leaves the state_changes table (and the snapshot table) untouched. -/
theorem delete_state_changes_frame (st : Storage) (ids : List Int) :
    (delete_state_changes st ids).state_changes = st.state_changes ∧
    (delete_state_changes st ids).state_snapshot = st.state_snapshot ∧
    (delete_state_changes st ids).state_events =
      st.state_events.filter (fun e => e.identifier ∉ ids) := by
  induction ids generalizing st with
  | nil =>
    refine ⟨rfl, rfl, ?_⟩
    show st.state_events = _
    rw [List.filter_eq_self.mpr]
    intro a _
    simp
  | cons i rest ih =>
    obtain ⟨h1, h2, h3⟩ :=
      ih { st with
            state_events := st.state_events.filter (fun e => e.identifier ≠ i) }
    refine ⟨h1, h2, ?_⟩
    rw [show delete_state_changes st (i :: rest) =
        delete_state_changes
          { st with
              state_events := st.state_events.filter (fun e => e.identifier ≠ i) }
          rest from rfl]
    rw [h3]
    simp only [List.filter_filter]
    apply List.filter_congr
    intro e _
    simp [List.mem_cons, not_or, Bool.and_comm]

/-! Helper lemmas about the batch-query page loop. -/

theorem take_append_drop_length (d : List α) :
    ∀ b : Nat, d.take b ++ d.drop ((d.take b).length) = d := by
  induction d with
  | nil => intro b; simp
  | cons x xs ih =>
    intro b
    cases b with
    | zero => simp
    | succ b =>
      simp only [List.take_succ_cons, List.length_cons, List.drop_succ_cons,
        List.cons_append]
      rw [ih b]

theorem getLast?_cons_of_ne_nil (a : α) (l : List α) (h : l ≠ []) :
    (a :: l).getLast? = l.getLast? := by
  cases l with
  | nil => exact absurd rfl h
  | cons y ys => exact List.getLast?_cons_cons

theorem dropLast_cons_ne_nil (a : α) (l : List α) (h : l ≠ []) :
    (a :: l).dropLast = a :: l.dropLast := by
  cases l with
  | nil => exact absurd rfl h
  | cons y ys => rfl

theorem batchGo_ne_nil (rows : List α) (b off : Nat) :
    batchGo rows b off ≠ [] := by
  rw [batchGo]
  split <;> simp

theorem batchGo_flatten (rows : List α) (b : Nat) (hb : 1 ≤ b) :
    ∀ (n off : Nat), rows.length - off ≤ n →
      (batchGo rows b off).flatten = rows.drop off := by
  intro n
  induction n with
  | zero =>
    intro off hoff
    have hdrop : rows.drop off = [] := List.drop_eq_nil_of_le (by omega)
    rw [batchGo]
    simp [hdrop]
  | succ n ih =>
    intro off hoff
    rw [batchGo]
    by_cases h : ((rows.drop off).take b).length = 0
    · rw [dif_pos h]
      have hlen0 : (rows.drop off).length = 0 := by
        simp only [List.length_take] at h
        omega
      have hdrop : rows.drop off = [] := List.length_eq_zero.mp hlen0
      simp [hdrop]
    · rw [dif_neg h]
      rw [List.flatten_cons]
      have hstep : ((rows.drop off).take b).length ≤ rows.length - off := by
        simp only [List.length_take, List.length_drop]
        omega
      rw [ih (off + ((rows.drop off).take b).length) (by omega)]
      have hsplit : rows.drop (off + ((rows.drop off).take b).length) =
          (rows.drop off).drop ((rows.drop off).take b).length := by
        rw [List.drop_drop, Nat.add_comm]
      rw [hsplit]
      exact take_append_drop_length (rows.drop off) b

theorem batchGo_page_length (rows : List α) (b : Nat) :
    ∀ (n off : Nat), rows.length - off ≤ n →
      ∀ p ∈ batchGo rows b off, p.length ≤ b := by
  intro n
  induction n with
  | zero =>
    intro off hoff p hp
    rw [batchGo] at hp
    have h0 : ((rows.drop off).take b).length = 0 := by
      simp only [List.length_take, List.length_drop]
      omega
    rw [dif_pos h0] at hp
    simp at hp
    subst hp
    omega
  | succ n ih =>
    intro off hoff p hp
    rw [batchGo] at hp
    by_cases h : ((rows.drop off).take b).length = 0
    · rw [dif_pos h] at hp
      simp at hp
      subst hp
      omega
    · rw [dif_neg h] at hp
      rcases List.mem_cons.mp hp with hp | hp
      · subst hp
        simp only [List.length_take]
        omega
      · have hstep : ((rows.drop off).take b).length ≤ rows.length - off := by
          simp only [List.length_take, List.length_drop]
          omega
        exact ih (off + ((rows.drop off).take b).length) (by omega) p hp

theorem batchGo_getLast (rows : List α) (b : Nat) :
    ∀ (n off : Nat), rows.length - off ≤ n →
      (batchGo rows b off).getLast? = some [] := by
  intro n
  induction n with
  | zero =>
    intro off hoff
    rw [batchGo]
    have h0 : ((rows.drop off).take b).length = 0 := by
      simp only [List.length_take, List.length_drop]
      omega
    rw [dif_pos h0]
    simp [List.length_eq_zero.mp h0]
  | succ n ih =>
    intro off hoff
    rw [batchGo]
    by_cases h : ((rows.drop off).take b).length = 0
    · rw [dif_pos h]
      simp [List.length_eq_zero.mp h]
    · rw [dif_neg h]
      rw [getLast?_cons_of_ne_nil _ _ (batchGo_ne_nil rows b _)]
      have hstep : ((rows.drop off).take b).length ≤ rows.length - off := by
        simp only [List.length_take, List.length_drop]
        omega
      exact ih (off + ((rows.drop off).take b).length) (by omega)

theorem batchGo_dropLast (rows : List α) (b : Nat) :
    ∀ (n off : Nat), rows.length - off ≤ n →
      ∀ p ∈ (batchGo rows b off).dropLast, p ≠ [] := by
  intro n
  induction n with
  | zero =>
    intro off hoff p hp
    rw [batchGo] at hp
    have h0 : ((rows.drop off).take b).length = 0 := by
      simp only [List.length_take, List.length_drop]
      omega
    rw [dif_pos h0] at hp
    simp at hp
  | succ n ih =>
    intro off hoff p hp
    rw [batchGo] at hp
    by_cases h : ((rows.drop off).take b).length = 0
    · rw [dif_pos h] at hp
      simp at hp
    · rw [dif_neg h] at hp
      rw [dropLast_cons_ne_nil _ _ (batchGo_ne_nil rows b _)] at hp
      rcases List.mem_cons.mp hp with hp | hp
      · subst hp
        intro hnil
        rw [hnil] at h
        simp at h
      · have hstep : ((rows.drop off).take b).length ≤ rows.length - off := by
          simp only [List.length_take, List.length_drop]
          omega
        exact ih (off + ((rows.drop off).take b).length) (by omega) p hp

theorem batchGo_getLast0 (rows : List α) (b : Nat) :
    (batchGo rows b 0).getLast? = some [] :=
  batchGo_getLast rows b rows.length 0 (by omega)

theorem batchGo_dropLast0 (rows : List α) (b : Nat) :
    ∀ p ∈ (batchGo rows b 0).dropLast, p ≠ [] :=
  batchGo_dropLast rows b rows.length 0 (by omega)

theorem batchGo_page_length0 (rows : List α) (b : Nat) :
    ∀ p ∈ batchGo rows b 0, p.length ≤ b :=
  batchGo_page_length rows b rows.length 0 (by omega)

theorem count_nil_of_last_empty [DecidableEq α] (l : List (List α))
    (h1 : l.getLast? = some []) (h2 : ∀ p ∈ l.dropLast, p ≠ []) :
    l.count [] = 1 := by
  have hne : l ≠ [] := by
    intro h
    rw [h] at h1
    simp at h1
  have hlast : l.getLast hne = [] := by
    have h3 := List.getLast?_eq_getLast l hne
    rw [h3] at h1
    exact Option.some_inj.mp h1
  have hsplit := List.dropLast_append_getLast hne
  rw [← hsplit, List.count_append, hlast]
  have hz : l.dropLast.count ([] : List α) = 0 := by
    rw [List.count_eq_zero]
    intro hmem
    exact h2 [] hmem rfl
  rw [hz]
  simp

/-! Claim C6. -/

/-- C6: for every batch size >= 1 and every compiled filter predicate,
batch_query_state_changes succeeds and yields the page sequence whose
concatenation is exactly the result of the single unbounded query with
the same filters (in the same ascending order); every page holds at most
batch rows; the final yielded page is the first empty one (all earlier
pages are nonempty). -/
theorem batch_query_refines_unbounded (tbl : List StateChangeRow)
    (pred : StateChangeRow → Bool) (batch : Nat) (hb : 1 ≤ batch) :
    batch_query_state_changes tbl pred (batch : Int) =
      .ok (statePagesOf tbl pred batch) ∧
    _get_state_changes tbl pred none none =
      .ok ((statePagesOf tbl pred batch).flatten) ∧
    (∀ p ∈ statePagesOf tbl pred batch, p.length ≤ batch) ∧
    (statePagesOf tbl pred batch).getLast? = some [] ∧
    (∀ p ∈ (statePagesOf tbl pred batch).dropLast, p ≠ []) := by
  have hjoin : (statePagesOf tbl pred batch).flatten =
      (sortByIdent (·.identifier) tbl).filter pred := by
    have h := batchGo_flatten ((sortByIdent (·.identifier) tbl).filter pred)
      batch hb ((sortByIdent (·.identifier) tbl).filter pred).length 0
      (by omega)
    simpa [statePagesOf] using h
  refine ⟨?_, ?_, ?_, ?_, ?_⟩
  · simp [batch_query_state_changes]
  · rw [hjoin]
    simp [_get_state_changes, _sanitize_limit_and_offset, sqlPage]
  · intro p hp
    exact batchGo_page_length0 _ batch p hp
  · exact batchGo_getLast0 _ batch
  · exact batchGo_dropLast0 _ batch

/-- C6 witness: with a one-row table and batch size 1 the page sequence
ends with the empty page. -/
theorem batch_query_refines_unbounded_witness :
    (statePagesOf [⟨1, "a", "t"⟩] (fun _ => Bool.true) 1).getLast? =
      some [] :=
  (batch_query_refines_unbounded [⟨1, "a", "t"⟩] (fun _ => Bool.true) 1
    (by norm_num)).2.2.2.1

/-! Claim C10. -/

/-- C10: for every batch size and every filter, both generators yield the
terminating empty page to their consumer: the page list is nonempty, its
last element is the empty list, and the empty page occurs exactly once —
this also covers the empty table, where the single yielded page is the
empty one. -/
theorem batch_query_final_empty_page
    (tblS : List StateChangeRow) (predS : StateChangeRow → Bool)
    (tblE : List EventRow) (predE : EventRow → Bool) (batch : Nat) :
    batch_query_state_changes tblS predS (batch : Int) =
      .ok (statePagesOf tblS predS batch) ∧
    statePagesOf tblS predS batch ≠ [] ∧
    (statePagesOf tblS predS batch).getLast? = some [] ∧
    (statePagesOf tblS predS batch).count [] = 1 ∧
    batch_query_event_records tblE predE (batch : Int) =
      .ok (eventPagesOf tblE predE batch) ∧
    eventPagesOf tblE predE batch ≠ [] ∧
    (eventPagesOf tblE predE batch).getLast? = some [] ∧
    (eventPagesOf tblE predE batch).count [] = 1 := by
  refine ⟨?_, ?_, ?_, ?_, ?_, ?_, ?_, ?_⟩
  · simp [batch_query_state_changes]
  · exact batchGo_ne_nil _ batch 0
  · exact batchGo_getLast0 _ batch
  · exact count_nil_of_last_empty _
      (batchGo_getLast0 _ batch)
      (batchGo_dropLast0 _ batch)
  · simp [batch_query_event_records]
  · exact batchGo_ne_nil _ batch 0
  · exact batchGo_getLast0 _ batch
  · exact count_nil_of_last_empty _
      (batchGo_getLast0 _ batch)
      (batchGo_dropLast0 _ batch)
